import Mathlib

/-!
Verification of the row-normalization, coercion and statement-generation
pipeline of create_table_from_sheet.py, shallowly embedded in Lean.
Python strings are modelled as Lean strings (lists of characters); the
external collaborators (dateutil date parsing, Python float parsing and
float repr) are modelled as explicit function parameters, since they live
outside the repository; exceptions are modelled with Except.
-/

namespace CTFS

/-- The single-quote character, ASCII 39. -/
def squoteChar : Char := Char.ofNat 39

/-- The single-quote as a one-character string. -/
def squote : String := ⟨[squoteChar]⟩

/-- Whitespace characters stripped by Python str.strip with no argument
(ASCII subset: space, tab, newline, carriage return, vertical tab, form feed). -/
def isPySpace (c : Char) : Bool :=
  c.toNat = 32 || c.toNat = 9 || c.toNat = 10 || c.toNat = 13 ||
  c.toNat = 11 || c.toNat = 12

/-- Python str.strip with no argument: remove leading and trailing whitespace. -/
def pyStrip (s : String) : String :=
  ⟨((s.data.dropWhile isPySpace).reverse.dropWhile isPySpace).reverse⟩

/-- chop_at_blank from the source: walk the row, stop (break) at the first
element equal to the empty string, keep everything before it. -/
def chop_at_blank : List String → List String
  | [] => []
  | item :: rest => if item = "" then [] else item :: chop_at_blank rest

/-- drop_empty_rows from the source: keep a row iff some cell is truthy
after str.strip, i.e. nonempty after stripping whitespace. -/
def drop_empty_rows (rows : List (List String)) : List (List String) :=
  rows.filter (fun row => row.any (fun val => pyStrip val != ""))

/-- Characters allowed in a normalized key: the regex class [a-z0-9_]. -/
def isKeyChar (c : Char) : Bool :=
  (97 ≤ c.toNat && c.toNat ≤ 122) || (48 ≤ c.toNat && c.toNat ≤ 57) || c.toNat = 95

/-- Worker for the regex substitution sub("[^a-z0-9_]+", "_", s): the flag
records whether the previous character was part of a run being replaced,
so that a maximal run of disallowed characters yields one underscore. -/
def subAux : Bool → List Char → List Char
  | _, [] => []
  | prevBad, c :: cs =>
    if isKeyChar c then c :: subAux false cs
    else if prevBad then subAux true cs
    else '_' :: subAux true cs

/-- Python str.lower, modelled per character (ASCII-faithful). -/
def pyLower (s : String) : String := ⟨s.data.map Char.toLower⟩

/-- headers_to_keys from the source: lower-case each header and replace every
maximal run of characters outside [a-z0-9_] with a single underscore. -/
def normalizeKey (h : String) : String := ⟨subAux false (pyLower h).data⟩

/-- headers_to_keys maps normalizeKey over the headers. -/
def headers_to_keys (headers : List String) : List String :=
  headers.map normalizeKey

/-- Insert one binding into a Python dict modelled as an association list
with unique keys: assignment to an existing key overwrites its value in
place, a new key is appended at the end (insertion order). -/
def dictInsert (k : String) (v : α) : List (String × α) → List (String × α)
  | [] => [(k, v)]
  | (k2, v2) :: rest =>
    if k2 = k then (k2, v) :: rest else (k2, v2) :: dictInsert k v rest

/-- Build a Python dict from a list of key-value pairs, as dict(zip(...))
does: bindings are inserted left to right, later bindings for the same key
overwrite earlier ones. -/
def pyDict (pairs : List (String × α)) : List (String × α) :=
  pairs.foldl (fun acc p => dictInsert p.1 p.2 acc) []

/-- Python dict.get: the value bound to k, if any (keys are unique). -/
def dictGet (k : String) : List (String × α) → Option α
  | [] => none
  | (k2, v) :: rest => if k2 = k then some v else dictGet k rest

/-- Exceptions the coercion loop can raise: ValueError from int() or
float() or a failed date parse, and the AttributeError raised by calling
strftime on None. -/
inductive PyErr where
  | valueError
  | attributeError
deriving DecidableEq

/-- A coerced cell value: the original string, a parsed integer, a parsed
float (abstract carrier F, since Python floats are outside the model), or
None. -/
inductive Value (F : Type) where
  | vstr : String → Value F
  | vint : Int → Value F
  | vfloat : F → Value F
  | vnull : Value F
deriving DecidableEq

/-- External collaborators of the coercion pipeline, abstracted: Python
float() as a partial parse, dateutil.parser.parse as a partial parse into
an abstract datetime carrier D, the two strftime format calls, and the
json repr of a float. -/
structure Ext (F D : Type) where
  floatParse : String → Option F
  dateParse : String → Option D
  fmtDate : D → String
  fmtDatetime : D → String
  floatRepr : F → String

/-- A trivial instantiation of the external collaborators, used to
evaluate the model on concrete inputs that never reach them. -/
def extUnit : Ext Unit Unit :=
  ⟨fun _ => none, fun _ => none, fun _ => "", fun _ => "", fun _ => ""⟩

/-- re.sub of the class [,$] with the empty string: delete every comma and
dollar sign. -/
def stripCommaDollar (s : String) : String :=
  ⟨s.data.filter (fun c => !(c.toNat = 44 || c.toNat = 36))⟩

/-- Numeric value of a decimal digit character. -/
def digitVal (c : Char) : Nat := c.toNat - 48

/-- Digits of a Python int literal after the first digit: decimal digits
with single underscores allowed between digits only. -/
def pyIntDigits : Nat → List Char → Option Nat
  | acc, [] => some acc
  | acc, c :: cs =>
    if c.isDigit then pyIntDigits (acc * 10 + digitVal c) cs
    else if c = '_' then
      match cs with
      | c2 :: cs2 =>
        if c2.isDigit then pyIntDigits (acc * 10 + digitVal c2) cs2 else none
      | [] => none
    else none

/-- An unsigned run of digits: nonempty, starting with a digit. -/
def pyIntUnsigned : List Char → Option Nat
  | [] => none
  | c :: cs => if c.isDigit then pyIntDigits (digitVal c) cs else none

/-- Python int(str): surrounding whitespace is ignored, then an optional
sign followed by a nonempty digit string (with single underscores between
digits); none models a ValueError. -/
def pyIntParse (s : String) : Option Int :=
  match ((s.data.dropWhile isPySpace).reverse.dropWhile isPySpace).reverse with
  | '+' :: rest => (pyIntUnsigned rest).map (fun n => (n : Int))
  | '-' :: rest => (pyIntUnsigned rest).map (fun n => -(n : Int))
  | rest => (pyIntUnsigned rest).map (fun n => (n : Int))

/-- Python repr of a short tag string, for tags without quotes,
backslashes or control characters: the string in single quotes. -/
def pyRepr (s : String) : String := squote ++ s ++ squote

/-- One iteration of the loop in apply_coercions_1: coerce one value given
the coercion target looked up for its key. Returns the new value together
with the diagnostics printed to stderr, or the exception raised. -/
def coerce1 (E : Ext F D) (target : Option String) (val : String) :
    Except PyErr (Value F × List String) :=
  match target with
  | none => .ok (.vstr val, [])
  | some t =>
    if t = "int" || t = "integer" then
      let s := stripCommaDollar val
      if s != "" then
        match pyIntParse s with
        | some n => .ok (.vint n, [])
        | none => .error .valueError
      else .ok (.vnull, [])
    else if t = "float" then
      let s := stripCommaDollar val
      if s != "" then
        match E.floatParse s with
        | some f => .ok (.vfloat f, [])
        | none => .error .valueError
      else .ok (.vnull, [])
    else if t = "date" then
      if pyStrip val != "" then
        match E.dateParse val with
        | some d => .ok (.vstr (E.fmtDate d), [])
        | none => .error .valueError
      else .error .attributeError
    else if t = "datetime" || t = "timestamp" then
      if pyStrip val != "" then
        match E.dateParse val with
        | some d => .ok (.vstr (E.fmtDatetime d), [])
        | none => .error .valueError
      else .error .attributeError
    else
      .ok (.vstr val, ["Unknown coercion target " ++ pyRepr t])

/-- apply_coercions_1 from the source: process the entries of one record
in order, looking each key up in the coercions dict; an exception aborts
the loop, otherwise the new record and the stderr diagnostics in print
order are returned. -/
def apply_coercions_1 (E : Ext F D) (coercions : List (String × String)) :
    List (String × String) → Except PyErr (List (String × Value F) × List String)
  | [] => .ok ([], [])
  | (k, v) :: rest => do
    let (val, ds) ← coerce1 E (dictGet k coercions) v
    let (restVals, restDs) ← apply_coercions_1 E coercions rest
    .ok ((k, val) :: restVals, ds ++ restDs)

/-- apply_coercions from the source: apply apply_coercions_1 to every
record, aborting at the first exception. -/
def apply_coercions (E : Ext F D) (coercions : List (String × String)) :
    List (List (String × String)) →
    Except PyErr (List (List (String × Value F)) × List String)
  | [] => .ok ([], [])
  | obj :: rest => do
    let (vals, ds) ← apply_coercions_1 E coercions obj
    let (restVals, restDs) ← apply_coercions E coercions rest
    .ok (vals :: restVals, ds ++ restDs)

/-- The pure part of _read_worksheet: given the raw rows already split
into the first row and the rest, chop the header row at its first blank
cell and drop the blank data rows. -/
structure RawPayload where
  title : String
  headers : List String
  data : List (List String)
deriving DecidableEq

/-- shape_payload: the payload _read_worksheet builds from the worksheet
title, the raw header row rows[0] and the raw data rows rows[1:]. -/
def shape_payload (title : String) (headerRow : List String)
    (dataRows : List (List String)) : RawPayload :=
  ⟨title, chop_at_blank headerRow, drop_empty_rows dataRows⟩

/-- The pure part of read_worksheet: normalize the headers to keys, build
one dict per retained row by zipping keys with the row cells (zip stops at
the shorter sequence), and, when the coercions dict is nonempty (truthy),
run every record through apply_coercions. String cell values are injected
into Value with vstr. Returns the title, the records and the collected
stderr diagnostics. -/
def read_worksheet (E : Ext F D) (coercions : List (String × String))
    (payload : RawPayload) :
    Except PyErr (String × List (List (String × Value F)) × List String) :=
  let keys := headers_to_keys payload.headers
  let objects := payload.data.map (fun row => pyDict (keys.zip row))
  if coercions.isEmpty then
    .ok (payload.title,
         objects.map (fun obj => obj.map (fun p => (p.1, Value.vstr p.2))), [])
  else
    (apply_coercions E coercions objects).map
      (fun r => (payload.title, r.1, r.2))

/-- Lower-case hexadecimal digit. -/
def hexDigit (n : Nat) : Char :=
  if n < 10 then Char.ofNat (48 + n) else Char.ofNat (87 + n)

/-- Four lower-case hexadecimal digits, as json.dumps prints them in a
unicode escape. -/
def hex4 (n : Nat) : String :=
  ⟨[hexDigit (n / 4096 % 16), hexDigit (n / 256 % 16),
    hexDigit (n / 16 % 16), hexDigit (n % 16)]⟩

/-- How json.dumps (default options, ensure_ascii) renders one character
inside a JSON string literal: double quote and backslash are escaped, the
named control escapes are used, other control characters and all
non-ASCII characters become unicode escapes, and everything else is
emitted verbatim. A single quote, in particular, is emitted verbatim. -/
def jsonEscapeChar (c : Char) : String :=
  if c.toNat = 34 then "\\\""
  else if c.toNat = 92 then "\\\\"
  else if c.toNat = 10 then "\\n"
  else if c.toNat = 9 then "\\t"
  else if c.toNat = 13 then "\\r"
  else if c.toNat = 8 then "\\b"
  else if c.toNat = 12 then "\\f"
  else if c.toNat < 32 then "\\u" ++ hex4 c.toNat
  else if c.toNat < 127 then ⟨[c]⟩
  else if c.toNat ≤ 65535 then "\\u" ++ hex4 c.toNat
  else
    "\\u" ++ hex4 (55296 + (c.toNat - 65536) / 1024) ++
    "\\u" ++ hex4 (56320 + (c.toNat - 65536) % 1024)

/-- A JSON string literal for s, double-quoted with every character
escaped as json.dumps does. -/
def jsonQuote (s : String) : String :=
  "\"" ++ String.join (s.data.map jsonEscapeChar) ++ "\""

/-- How json.dumps renders one value: strings are quoted, ints printed in
decimal, floats by their Python repr, None as null. -/
def jsonValue (floatRepr : F → String) : Value F → String
  | .vstr s => jsonQuote s
  | .vint n => toString n
  | .vfloat f => floatRepr f
  | .vnull => "null"

/-- json.dumps of one record with the default separators: key-value pairs
in insertion order inside braces. -/
def jsonDumps (floatRepr : F → String) (obj : List (String × Value F)) : String :=
  "\x7b" ++
  String.intercalate ", "
    (obj.map (fun p => jsonQuote p.1 ++ ": " ++ jsonValue floatRepr p.2)) ++
  "\x7d"

/-- One value-row of the insert statement: the format string of the
source, with the title and the serialized record spliced verbatim between
single quotes. -/
def insertRow (floatRepr : F → String) (title : String)
    (obj : List (String × Value F)) : String :=
  "(" ++ squote ++ title ++ squote ++ ", current_timestamp, " ++
  squote ++ jsonDumps floatRepr obj ++ squote ++ ")"

/-- The body of the VALUES clause: one row per record, a comma after
every row except the last, each row followed by a newline. -/
def insertRowsBody (floatRepr : F → String) (title : String) :
    List (List (String × Value F)) → String
  | [] => ""
  | [obj] => insertRow floatRepr title obj ++ "\n"
  | obj :: rest =>
    insertRow floatRepr title obj ++ ",\n" ++ insertRowsBody floatRepr title rest

/-- build_insert_rows from the source: the fixed INSERT header followed by
the value rows. -/
def build_insert_rows (floatRepr : F → String) (schema table title : String)
    (data : List (List (String × Value F))) : String :=
  "INSERT INTO " ++ schema ++ "." ++ table ++ "\n" ++
  "SELECT column1, column2, parse_json(column3)\n" ++
  "FROM VALUES\n" ++
  insertRowsBody floatRepr title data

/-- True when s contains a single-quote character that is not part of an
adjacent doubled pair: spliced verbatim between single quotes in a SQL
statement, such a string terminates the literal early. -/
def containsLoneQuote : List Char → Bool
  | [] => false
  | c :: c2 :: rest =>
    if c = squoteChar then
      if c2 = squoteChar then containsLoneQuote rest else true
    else containsLoneQuote (c2 :: rest)
  | [c] => c = squoteChar

/-- Modelled from the spec: the escaping contract of StatementBuilder.
The serialized form of every record, embedded verbatim between single
quotes by build_insert_rows, must not be able to break out of that
string literal; since no further escaping is applied, this requires the
serialization to contain no lone single-quote character. -/
def recordsSafelyEmbedded (floatRepr : F → String)
    (data : List (List (String × Value F))) : Prop :=
  ∀ obj ∈ data, containsLoneQuote (jsonDumps floatRepr obj).data = false

deriving instance DecidableEq for Except

theorem chop_eq_takeWhile (row : List String) :
    chop_at_blank row = row.takeWhile (fun s => s != "") := by
  induction row with
  | nil => rfl
  | cons item rest ih =>
    by_cases h : item = ""
    · simp [chop_at_blank, List.takeWhile, h]
    · have hb : (item != "") = true := by simp [h]
      simp [chop_at_blank, List.takeWhile, h, ih, hb]

theorem forall_dropWhile_iff (p : α → Bool) (l : List α) :
    (∀ x ∈ l.dropWhile p, p x) ↔ ∀ x ∈ l, p x := by
  induction l with
  | nil => simp
  | cons c cs ih =>
    by_cases hc : p c
    · simp [List.dropWhile, hc, ih]
    · simp [List.dropWhile, hc]

theorem pyStrip_eq_empty_iff (v : String) :
    pyStrip v = "" ↔ ∀ c ∈ v.data, isPySpace c := by
  show String.mk _ = String.mk [] ↔ _
  rw [String.ext_iff]
  show List.reverse _ = [] ↔ _
  rw [List.reverse_eq_nil_iff, List.dropWhile_eq_nil_iff]
  constructor
  · intro h
    rw [← forall_dropWhile_iff isPySpace v.data]
    intro x hx
    exact h x (by simpa using hx)
  · intro h x hx
    rw [List.mem_reverse] at hx
    exact h x ((List.dropWhile_sublist _).subset hx)

theorem pyStrip_ne_empty_iff (v : String) :
    pyStrip v ≠ "" ↔ ∃ c ∈ v.data, isPySpace c = false := by
  rw [Ne, pyStrip_eq_empty_iff]
  simp

theorem subAux_keyChar (b : Bool) (c : Char) (cs : List Char)
    (h : isKeyChar c = true) : subAux b (c :: cs) = c :: subAux false cs := by
  cases b <;> simp [subAux, h]

theorem subAux_true_badRun (run xs : List Char)
    (h : ∀ c ∈ run, isKeyChar c = false) :
    subAux true (run ++ xs) = subAux true xs := by
  induction run with
  | nil => rfl
  | cons c cs ih =>
    have hc := h c (List.mem_cons_self c cs)
    simp only [List.cons_append, subAux, hc]
    simp only [Bool.false_eq_true, if_false, if_true]
    exact ih (fun x hx => h x (List.mem_cons_of_mem _ hx))

theorem subAux_true_eq_false (xs : List Char)
    (h : xs = [] ∨ ∃ c cs, xs = c :: cs ∧ isKeyChar c = true) :
    subAux true xs = subAux false xs := by
  rcases h with h | ⟨c, cs, rfl, hc⟩
  · subst h; rfl
  · rw [subAux_keyChar true c cs hc, subAux_keyChar false c cs hc]

theorem subAux_badRun (run xs : List Char) (hne : run ≠ [])
    (hbad : ∀ c ∈ run, isKeyChar c = false)
    (hnext : xs = [] ∨ ∃ c cs, xs = c :: cs ∧ isKeyChar c = true) :
    subAux false (run ++ xs) = '_' :: subAux false xs := by
  cases run with
  | nil => exact absurd rfl hne
  | cons c cs =>
    have hc := hbad c (List.mem_cons_self c cs)
    simp only [List.cons_append, subAux, hc]
    simp only [Bool.false_eq_true, if_false]
    show '_' :: subAux true (cs ++ xs) = '_' :: subAux false xs
    rw [subAux_true_badRun cs xs (fun x hx => hbad x (List.mem_cons_of_mem _ hx)),
        subAux_true_eq_false xs hnext]

theorem subAux_all_keyChar (l : List Char) (b : Bool) :
    ∀ c ∈ subAux b l, isKeyChar c = true := by
  induction l generalizing b with
  | nil => simp [subAux]
  | cons c cs ih =>
    by_cases hc : isKeyChar c
    · rw [subAux_keyChar b c cs hc]
      intro x hx
      rcases List.mem_cons.mp hx with rfl | hx
      · exact hc
      · exact ih false x hx
    · cases b
      · simp only [subAux, hc, Bool.false_eq_true, if_false]
        intro x hx
        rcases List.mem_cons.mp hx with rfl | hx
        · decide
        · exact ih true x hx
      · simp only [subAux, hc, Bool.false_eq_true, if_false, if_true]
        exact ih true

theorem dictGet_dictInsert_self (k : String) (v : α) (d : List (String × α)) :
    dictGet k (dictInsert k v d) = some v := by
  induction d with
  | nil => simp [dictInsert, dictGet]
  | cons p rest ih =>
    by_cases h : p.1 = k
    · simp [dictInsert, dictGet, h]
    · simp [dictInsert, dictGet, h, ih]

theorem pyDict_append_single (pairs : List (String × α)) (k : String) (v : α) :
    pyDict (pairs ++ [(k, v)]) = dictInsert k v (pyDict pairs) := by
  simp [pyDict, List.foldl_append]

/-- C10: header truncation stops only at a cell that is exactly the empty
string: chop_at_blank is takeWhile of nonemptiness, a nonempty cell (even
a whitespace-only one) never ends the headers, the whitespace-only header
cell in a concrete row is kept, while blank-row filtering, which trims
first, drops a whitespace-only row. -/
theorem chop_at_blank_no_trim_spec :
    (∀ row : List String, chop_at_blank row = row.takeWhile (fun s => s != "")) ∧
    (∀ (s : String) (row : List String), s ≠ "" →
      chop_at_blank (s :: row) = s :: chop_at_blank row) ∧
    chop_at_blank [" ", "x"] = [" ", "x"] ∧
    drop_empty_rows [[" "]] = [] := by
  refine ⟨chop_eq_takeWhile, ?_, by decide, by decide⟩
  intro s row h
  simp [chop_at_blank, h]

/-- C10 witness: a whitespace-only cell does not end the effective
headers. -/
theorem chop_at_blank_no_trim_spec_witness :
    chop_at_blank ([" "] : List String) = [" "] ++ chop_at_blank [] := by
  have h := chop_at_blank_no_trim_spec.2.1 " " [] (by decide)
  simpa using h

/-- C7: blank-row filtering keeps a row iff some cell is nonempty after
stripping whitespace, i.e. iff some cell has a non-whitespace character;
the retained rows form a sublist of the input, hence keep their original
relative order and untrimmed content. -/
theorem drop_empty_rows_spec :
    (∀ (rows : List (List String)) (row : List String),
      row ∈ drop_empty_rows rows ↔
        row ∈ rows ∧ ∃ v ∈ row, pyStrip v ≠ "") ∧
    (∀ rows : List (List String), (drop_empty_rows rows).Sublist rows) ∧
    (∀ v : String, pyStrip v ≠ "" ↔ ∃ c ∈ v.data, isPySpace c = false) := by
  refine ⟨?_, fun rows => List.filter_sublist rows, pyStrip_ne_empty_iff⟩
  intro rows row
  rw [drop_empty_rows, List.mem_filter]
  simp [List.any_eq_true]

/-- C4: header normalization is positionally aligned and length
preserving, every character of every produced key is in the class
[a-z0-9_], and the substitution underlying normalizeKey keeps characters
of the class and replaces every maximal run of characters outside it with
a single underscore. -/
theorem headers_to_keys_spec :
    (∀ hs : List String, (headers_to_keys hs).length = hs.length) ∧
    (∀ (hs : List String) (i : Nat),
      (headers_to_keys hs)[i]? = hs[i]?.map normalizeKey) ∧
    (∀ hs : List String, ∀ k ∈ headers_to_keys hs,
      ∀ c ∈ k.data, isKeyChar c = true) ∧
    (∀ (b : Bool) (c : Char) (cs : List Char), isKeyChar c = true →
      subAux b (c :: cs) = c :: subAux false cs) ∧
    (∀ run xs : List Char, run ≠ [] → (∀ c ∈ run, isKeyChar c = false) →
      (xs = [] ∨ ∃ c cs, xs = c :: cs ∧ isKeyChar c = true) →
      subAux false (run ++ xs) = '_' :: subAux false xs) := by
  refine ⟨fun hs => List.length_map hs normalizeKey,
          fun hs i => List.getElem?_map normalizeKey hs i, ?_,
          fun b c cs h => subAux_keyChar b c cs h, subAux_badRun⟩
  intro hs k hk c hc
  rw [headers_to_keys, List.mem_map] at hk
  rcases hk with ⟨h, _, rfl⟩
  exact subAux_all_keyChar (pyLower h).data false c hc

/-- C4 witness: normalization of a concrete header row, with the run
lemma instantiated on a concrete run. -/
theorem headers_to_keys_spec_witness :
    (headers_to_keys ["Name", "Amount", "A  +B"]).length = 3 ∧
    subAux false ([' ', ' ', '+'] ++ ['b']) = '_' :: subAux false ['b'] := by
  constructor
  · rw [headers_to_keys_spec.1 ["Name", "Amount", "A  +B"]]; rfl
  · exact headers_to_keys_spec.2.2.2.2 [' ', ' ', '+'] ['b'] (by decide)
      (by decide) (Or.inr ⟨'b', [], rfl, by decide⟩)

theorem apply_coercions_1_single {F D : Type} (E : Ext F D) (k t v : String) :
    apply_coercions_1 E [(k, t)] [(k, v)] =
      match coerce1 E (some t) v with
      | .ok (val, ds) => .ok ([(k, val)], ds ++ [])
      | .error e => .error e := by
  have hd : dictGet k [(k, t)] = some t := by simp [dictGet]
  simp only [apply_coercions_1, hd]
  cases hc : coerce1 E (some t) v with
  | ok r => cases r; rfl
  | error e => rfl

theorem coerce1_int_eq {F D : Type} (E : Ext F D) (t v : String)
    (ht : t = "int" ∨ t = "integer") :
    coerce1 E (some t) v =
      (if stripCommaDollar v != "" then
        match pyIntParse (stripCommaDollar v) with
        | some n => .ok (.vint n, [])
        | none => .error .valueError
      else .ok (.vnull, [])) := by
  rcases ht with rfl | rfl <;> rfl

/-- C5: integer coercion first deletes commas and dollar signs; an empty
remainder yields null; a remainder that parses as a Python base-10
integer literal yields that integer; a ValueError (the ParseError of the
spec) is raised exactly when the remainder is nonempty and not a valid
literal. The value with a dollar sign and a comma parses to 1234. -/
theorem int_coercion_spec {F D : Type} (E : Ext F D) (t : String)
    (ht : t = "int" ∨ t = "integer") (v : String) :
    (coerce1 E (some t) v = .error .valueError ↔
      stripCommaDollar v ≠ "" ∧ pyIntParse (stripCommaDollar v) = none) ∧
    (stripCommaDollar v = "" → coerce1 E (some t) v = .ok (.vnull, [])) ∧
    (∀ n : Int, pyIntParse (stripCommaDollar v) = some n →
      coerce1 E (some t) v = .ok (.vint n, [])) ∧
    stripCommaDollar "$1,234" = "1234" ∧
    coerce1 E (some "int") "$1,234" = .ok (.vint 1234, []) := by
  have he := coerce1_int_eq E t v ht
  refine ⟨?_, ?_, ?_, by decide, by rfl⟩
  · rw [he]
    by_cases hs : stripCommaDollar v = ""
    · simp [hs]
    · have hb : (stripCommaDollar v != "") = true := by simp [hs]
      rw [hb]
      cases hp : pyIntParse (stripCommaDollar v) <;> simp [hp, hs]
  · intro hs
    rw [he]
    simp [hs]
  · intro n hn
    rw [he]
    by_cases hs : stripCommaDollar v = ""
    · rw [hs] at hn
      have h0 : pyIntParse "" = none := rfl
      rw [h0] at hn
      exact Option.noConfusion hn
    · have hb : (stripCommaDollar v != "") = true := by simp [hs]
      rw [hb, hn]
      simp

/-- C5 witness: the documented example, a dollar-and-comma value under
the int tag, coerces to the integer 1234, and an invalid nonempty
remainder raises ValueError. -/
theorem int_coercion_spec_witness :
    coerce1 extUnit (some "int") "$1,234" = .ok (.vint 1234, []) ∧
    coerce1 extUnit (some "int") "12x" = .error .valueError := by
  have h1 := int_coercion_spec extUnit "int" (Or.inl rfl) "$1,234"
  have h2 := int_coercion_spec extUnit "int" (Or.inl rfl) "12x"
  exact ⟨h1.2.2.2.2, h2.1.mpr (by decide)⟩

/-- C9: a present coercion tag outside the six known ones passes the
value through unchanged as a string, emits the unknown-coercion-target
diagnostic to stderr, and raises nothing: the record is still produced. -/
theorem unknown_coercion_spec {F D : Type} (E : Ext F D) (k v t : String)
    (h1 : t ≠ "int") (h2 : t ≠ "integer") (h3 : t ≠ "float") (h4 : t ≠ "date")
    (h5 : t ≠ "datetime") (h6 : t ≠ "timestamp") :
    coerce1 E (some t) v =
      .ok (.vstr v, ["Unknown coercion target " ++ pyRepr t]) ∧
    apply_coercions_1 E [(k, t)] [(k, v)] =
      .ok ([(k, Value.vstr v)], ["Unknown coercion target " ++ pyRepr t]) := by
  have hc : coerce1 E (some t) v =
      .ok (.vstr v, ["Unknown coercion target " ++ pyRepr t]) := by
    simp [coerce1, h1, h2, h3, h4, h5, h6]
  refine ⟨hc, ?_⟩
  rw [apply_coercions_1_single, hc]
  rfl

/-- C9 witness: an unknown tag on a concrete record produces the
unchanged value plus the diagnostic, with no error. -/
theorem unknown_coercion_spec_witness :
    apply_coercions_1 extUnit [("k", "bool")] [("k", "hi")] =
      .ok ([("k", Value.vstr "hi")], ["Unknown coercion target " ++ pyRepr "bool"]) :=
  (unknown_coercion_spec extUnit "k" "hi" "bool" (by decide) (by decide)
    (by decide) (by decide) (by decide) (by decide)).2

/-- C1: contrary to the claim, a date, datetime or timestamp value that
is empty after stripping whitespace does not short-circuit to null: the
code assigns None and then unconditionally calls strftime on it, raising
AttributeError, for every possible external date parser. -/
theorem date_empty_value_raises {F D : Type} (E : Ext F D) (k : String) :
    apply_coercions_1 E [(k, "date")] [(k, "")] = .error .attributeError ∧
    apply_coercions_1 E [(k, "datetime")] [(k, "")] = .error .attributeError ∧
    apply_coercions_1 E [(k, "timestamp")] [(k, " ")] = .error .attributeError := by
  refine ⟨?_, ?_, ?_⟩ <;> rw [apply_coercions_1_single] <;> rfl

/-- C6: record building zips keys with row cells positionally and stops
at the shorter sequence, and the documented scenario (a header row with a
trailing blank, a row with one extra cell, an int coercion on amount)
produces exactly the record with name Bob and amount 1234 less 34. -/
theorem record_zip_spec :
    (∀ keys row : List String, (keys.zip row).length = min keys.length row.length) ∧
    (∀ (keys row : List String) (k v : String),
      (k, v) ∈ keys.zip row → k ∈ keys ∧ v ∈ row) ∧
    read_worksheet extUnit [("amount", "int")]
      (shape_payload "T" ["Name", "Amount", ""] [["Bob", "$1,200", "extra"]]) =
      .ok ("T", [[("name", Value.vstr "Bob"), ("amount", Value.vint 1200)]], []) :=
  ⟨fun keys row => List.length_zip keys row,
   fun _ _ _ _ h => List.of_mem_zip h, by rfl⟩

/-- C6 witness: the zip membership property at a concrete pair of the
scenario. -/
theorem record_zip_spec_witness :
    "name" ∈ ["name", "amount"] ∧ "Bob" ∈ ["Bob", "$1,200", "extra"] :=
  record_zip_spec.2.1 ["name", "amount"] ["Bob", "$1,200", "extra"]
    "name" "Bob" (by decide)

/-- C8: the two documented headers both normalize to the same key, the
record built from them maps that key to the second column value, a
binding appended for an existing key always wins in the dict model, and
the full pipeline on the documented scenario keeps only the second
value. -/
theorem duplicate_key_overwrite_spec :
    headers_to_keys ["A B", "a-b"] = ["a_b", "a_b"] ∧
    (∀ x y : String,
      dictGet "a_b" (pyDict ((headers_to_keys ["A B", "a-b"]).zip [x, y])) = some y) ∧
    (∀ (pairs : List (String × String)) (k v : String),
      dictGet k (pyDict (pairs ++ [(k, v)])) = some v) ∧
    read_worksheet extUnit [] (shape_payload "T" ["A B", "a-b"] [["v1", "v2"]]) =
      .ok ("T", [[("a_b", Value.vstr "v2")]], []) := by
  refine ⟨by decide, fun x y => rfl, ?_, by rfl⟩
  intro pairs k v
  rw [pyDict_append_single, dictGet_dictInsert_self]

/-- C2: contrary to the claim, the record serialization json.dumps leaves
a single-quote character unescaped, and build_insert_rows splices it
verbatim between single quotes: a cell value containing a single quote
produces a lone quote inside the SQL string literal and breaks out of it,
as the exact generated statement shows. -/
theorem insert_escaping_violated :
    containsLoneQuote (jsonDumps (fun _ : Unit => "")
      [("a", Value.vstr ("x" ++ squote ++ "y"))]).data = true ∧
    ¬ recordsSafelyEmbedded (fun _ : Unit => "")
      [[("a", Value.vstr ("x" ++ squote ++ "y"))]] ∧
    build_insert_rows (fun _ : Unit => "") "s" "t" "w"
      [[("a", Value.vstr ("x" ++ squote ++ "y"))]] =
      "INSERT INTO s.t\nSELECT column1, column2, parse_json(column3)\nFROM VALUES\n(" ++
      squote ++ "w" ++ squote ++ ", current_timestamp, " ++ squote ++
      "\x7b\"a\": \"x" ++ squote ++ "y\"\x7d" ++ squote ++ ")\n" := by
  refine ⟨by decide, ?_, by decide⟩
  intro h
  have h2 := h [("a", Value.vstr ("x" ++ squote ++ "y"))] (by simp)
  exact absurd h2 (by decide)

/-- C3: on an empty data sequence build_insert_rows emits zero value-rows
and no dangling comma, but no special handling either: the output is
exactly the fixed insert header whose FROM VALUES clause is followed by
no row tuples at all. -/
theorem empty_data_insert {F : Type} (fr : F → String)
    (schema table title : String) :
    insertRowsBody fr title ([] : List (List (String × Value F))) = "" ∧
    build_insert_rows fr schema table title [] =
      "INSERT INTO " ++ schema ++ "." ++ table ++ "\n" ++
      "SELECT column1, column2, parse_json(column3)\n" ++ "FROM VALUES\n" := by
  constructor
  · rfl
  · simp only [build_insert_rows, insertRowsBody, String.append_empty]

end CTFS
